import Mathlib

set_option linter.unusedVariables false

/- Shallow embedding of the cibo-online multiplayer core (crate `cibo_online`).

   Modelling conventions:
   * Rust `f32` values are modelled as exact rationals (`ℚ`).  `f32::sqrt` is
     modelled by `Rat.sqrt`, which agrees with `f32::sqrt` at the perfect
     squares where the concrete theorems below evaluate it.  `f32::powf` is
     kept abstract (a function parameter) where it occurs.
   * Machine integers `i64`/`u64`/`u32` are modelled as `Int`/`Nat`; no value
     in this development approaches the overflow boundary.
   * `Vec`/`HashMap` are modelled as lists / association lists, keeping the
     iteration order of the source where it matters.
   * Fallible operations (`String::truncate` panics, decode errors) are
     modelled with `Option`/`Except`. -/

/- numeric helpers ---------------------------------------------------------/

/-- Rust `f32::clamp(lo, hi)` as in `core`: `if x < lo { lo } else if x > hi { hi } else { x }`. -/
def clampF32 (x lo hi : ℚ) : ℚ :=
  if x < lo then lo else if x > hi then hi else x

/-- Rust `f32::sqrt`, modelled by `Rat.sqrt`; exact at the perfect squares used below. -/
def sqrtF32 (x : ℚ) : ℚ := Rat.sqrt x

/-- Rust `as i64` cast from `f32`: truncation toward zero (saturation never reached here). -/
def f32toI64 (q : ℚ) : Int := q.num.tdiv q.den

/-- Rust `f32::signum`; the model has no signed zero, `+0.0` maps to `1.0` as in Rust. -/
def signumF32 (q : ℚ) : ℚ := if q < 0 then -1 else 1

/- geometry (monos_gfx) ----------------------------------------------------/

/-- Modelled from the spec: `monos_gfx::Position`, a pair of `i64` coordinates
    (the `monos_gfx` crate is an external collaborator, not part of this repository). -/
structure Position where
  x : Int
  y : Int
deriving DecidableEq, Repr

/-- Modelled from the spec: `monos_gfx::Dimension` (`u32` width/height). -/
structure Dimension where
  width : Nat
  height : Nat
deriving DecidableEq, Repr

/-- Modelled from the spec: the center offset of a dimension, `(w/2, h/2)`. -/
def Dimension.center (d : Dimension) : Position :=
  ⟨(d.width : Int) / 2, (d.height : Int) / 2⟩

/-- Componentwise addition of positions (`monos_gfx` `Add` impl). -/
def Position.add (a b : Position) : Position := ⟨a.x + b.x, a.y + b.y⟩

instance : Add Position := ⟨Position.add⟩

/-- Modelled from the spec: `monos_gfx::Rect`, an axis-aligned rectangle given
    by its min and max corners. -/
structure Rect where
  min : Position
  max : Position
deriving DecidableEq, Repr

/-- Modelled from the spec: translation of a rectangle by a position offset. -/
def Rect.translate (r : Rect) (p : Position) : Rect :=
  ⟨r.min + p, r.max + p⟩

/-- Modelled from the spec: axis-aligned rectangle intersection — the two
    rectangles overlap on both axes. -/
def Rect.intersects (a b : Rect) : Bool :=
  a.min.x < b.max.x && b.min.x < a.max.x && a.min.y < b.max.y && b.min.y < a.max.y

theorem Rect.intersects_comm (a b : Rect) : a.intersects b = b.intersects a := by
  simp only [Rect.intersects]
  by_cases h1 : a.min.x < b.max.x <;> by_cases h2 : b.min.x < a.max.x <;>
    by_cases h3 : a.min.y < b.max.y <;> by_cases h4 : b.min.y < a.max.y <;>
    simp [h1, h2, h3, h4]

/- collision model (src/cibo_online/src/world/object.rs) -------------------/

/-- Embedding of `CollisionInfo` (world/object.rs): collision center, optional
    velocity (`None` marks a static body) and the player tag. -/
structure CollisionInfo where
  center : Position
  velocity : Option (ℚ × ℚ)
  is_player : Bool
deriving DecidableEq, Repr

/-- Embedding of `CollisionInfo::new_dynamic`. -/
def CollisionInfo.new_dynamic (center : Position) (velocity : ℚ × ℚ) : CollisionInfo :=
  ⟨center, some velocity, false⟩

/-- Embedding of `CollisionInfo::new_static`. -/
def CollisionInfo.new_static (center : Position) : CollisionInfo :=
  ⟨center, none, false⟩

/-- Embedding of `CollisionInfo::new_player`. -/
def CollisionInfo.new_player (center : Position) (velocity : ℚ × ℚ) : CollisionInfo :=
  ⟨center, some velocity, true⟩

/-- Embedding of `CollisionInfo::is_static` (`velocity.is_none()`). -/
def CollisionInfo.is_static (c : CollisionInfo) : Bool := c.velocity.isNone

/-- Embedding of the `CollisionInfo::velocity()` accessor (`unwrap_or((0.0, 0.0))`). -/
def CollisionInfo.velocityOrZero (c : CollisionInfo) : ℚ × ℚ := c.velocity.getD (0, 0)

/-- Embedding of the shared normal computation in `CollisionInfo::apply` and
    `apply_with_force`: the (unit) normal from `self.center` to `other.center`
    together with the distance between the centers. -/
def CollisionInfo.normalAndLen (self other : CollisionInfo) : (ℚ × ℚ) × ℚ :=
  let normal : ℚ × ℚ :=
    ((other.center.x : ℚ) - (self.center.x : ℚ), (other.center.y : ℚ) - (self.center.y : ℚ))
  let normal_len := sqrtF32 (normal.1 * normal.1 + normal.2 * normal.2)
  ((normal.1 / normal_len, normal.2 / normal_len), normal_len)

/-- Embedding of `CollisionInfo::apply_raw`. -/
def CollisionInfo.apply_raw (self other : CollisionInfo) (normal : ℚ × ℚ)
    (normal_len : ℚ) : ℚ × ℚ :=
  if self.is_static then (0, 0)
  else
    let velocity := self.velocity.getD (0, 0)
    let velocity :=
      if other.is_static then
        let dot := velocity.1 * normal.1 + velocity.2 * normal.2
        (velocity.1 - 2 * dot * normal.1, velocity.2 - 2 * dot * normal.2)
      else
        (velocity.1 - normal.1 * (16 / max normal_len (1/10)) * (1/2),
         velocity.2 - normal.2 * (16 / max normal_len (1/10)) * (1/2))
    (clampF32 velocity.1 (-5) 5, clampF32 velocity.2 (-5) 5)

/-- Embedding of `CollisionInfo::apply`. -/
def CollisionInfo.apply (self other : CollisionInfo) : ℚ × ℚ :=
  let nl := self.normalAndLen other
  self.apply_raw other nl.1 nl.2

/-- Embedding of `CollisionInfo::apply_with_force`: `apply_raw` plus the
    impulse `-normal * force`, added after the clamp. -/
def CollisionInfo.apply_with_force (self other : CollisionInfo) (force : ℚ) : ℚ × ℚ :=
  let nl := self.normalAndLen other
  let velocity := self.apply_raw other nl.1 nl.2
  (velocity.1 + -nl.1.1 * force, velocity.2 + -nl.1.2 * force)

/- basic facts about the collision model -/

theorem clampF32_mem (x lo hi : ℚ) (h : lo ≤ hi) :
    lo ≤ clampF32 x lo hi ∧ clampF32 x lo hi ≤ hi := by
  unfold clampF32
  split
  · exact ⟨le_refl _, h⟩
  · split
    · exact ⟨h, le_refl _⟩
    · next h1 h2 => exact ⟨le_of_not_lt h1, le_of_not_lt h2⟩

theorem apply_raw_mem (self other : CollisionInfo) (normal : ℚ × ℚ) (normal_len : ℚ) :
    -5 ≤ (self.apply_raw other normal normal_len).1 ∧
      (self.apply_raw other normal normal_len).1 ≤ 5 ∧
      -5 ≤ (self.apply_raw other normal normal_len).2 ∧
      (self.apply_raw other normal normal_len).2 ≤ 5 := by
  unfold CollisionInfo.apply_raw
  split
  · norm_num
  · have h5 : (-5 : ℚ) ≤ 5 := by norm_num
    refine ⟨(clampF32_mem _ _ _ h5).1, (clampF32_mem _ _ _ h5).2,
      (clampF32_mem _ _ _ h5).1, (clampF32_mem _ _ _ h5).2⟩

/- C6: static immovability --------------------------------------------------/

/-- C6 (amended): a static body gains no velocity from `CollisionInfo::apply`
    (the result is `(0, 0)`); `apply_with_force`, however, adds the impulse
    `-normal * force` after `apply_raw`, so for a static `self` it returns the
    bare impulse instead of `(0, 0)`. -/
theorem CollisionInfo.apply_static_eq_zero (self other : CollisionInfo)
    (h : self.is_static = true) :
    self.apply other = (0, 0) ∧
      ∀ force : ℚ, self.apply_with_force other force =
        (-(self.normalAndLen other).1.1 * force, -(self.normalAndLen other).1.2 * force) := by
  constructor
  · unfold CollisionInfo.apply CollisionInfo.apply_raw
    simp [h]
  · intro force
    unfold CollisionInfo.apply_with_force CollisionInfo.apply_raw
    simp [h]

/-- Witness for `CollisionInfo.apply_static_eq_zero` at a concrete static body. -/
theorem CollisionInfo.apply_static_eq_zero_witness :
    (CollisionInfo.new_static ⟨0, 0⟩).is_static = true ∧
      (CollisionInfo.new_static ⟨0, 0⟩).apply (CollisionInfo.new_static ⟨16, 0⟩) = (0, 0) :=
  ⟨rfl, (CollisionInfo.apply_static_eq_zero (CollisionInfo.new_static ⟨0, 0⟩)
    (CollisionInfo.new_static ⟨16, 0⟩) rfl).1⟩

/-- C6 counterexample: for a static `self` sixteen units left of `other`,
    `apply_with_force` with force `10` returns `(-10, 0)`, not `(0, 0)` —
    a static body does acquire velocity through the force variant. -/
theorem CollisionInfo.apply_with_force_static_counterexample :
    (CollisionInfo.new_static ⟨0, 0⟩).is_static = true ∧
      (CollisionInfo.new_static ⟨0, 0⟩).apply_with_force
        (CollisionInfo.new_static ⟨16, 0⟩) 10 = (-10, 0) ∧
      ((-10 : ℚ), (0 : ℚ)) ≠ ((0 : ℚ), (0 : ℚ)) := by
  refine ⟨rfl, ?_, by norm_num⟩
  norm_num [CollisionInfo.apply_with_force, CollisionInfo.normalAndLen,
    CollisionInfo.apply_raw, CollisionInfo.is_static, CollisionInfo.new_static,
    sqrtF32, Rat.sqrt]

/- C7: velocity clamp -------------------------------------------------------/

/-- C7 (amended): both components of `CollisionInfo::apply` always lie within
    `[-5, 5]` (the result is either the static short-circuit `(0, 0)` or
    clamped); the clamp does not extend to `apply_with_force`, whose impulse is
    added after clamping. -/
theorem CollisionInfo.apply_within_clamp (self other : CollisionInfo)
    (h : self.center ≠ other.center) :
    -5 ≤ (self.apply other).1 ∧ (self.apply other).1 ≤ 5 ∧
      -5 ≤ (self.apply other).2 ∧ (self.apply other).2 ≤ 5 := by
  unfold CollisionInfo.apply
  exact apply_raw_mem self other _ _

/-- Witness for `CollisionInfo.apply_within_clamp` at concrete distinct centers. -/
theorem CollisionInfo.apply_within_clamp_witness :
    (⟨0, 0⟩ : Position) ≠ (⟨16, 0⟩ : Position) ∧
      -5 ≤ ((CollisionInfo.new_static ⟨0, 0⟩).apply (CollisionInfo.new_static ⟨16, 0⟩)).1 :=
  ⟨by decide, (CollisionInfo.apply_within_clamp (CollisionInfo.new_static ⟨0, 0⟩)
    (CollisionInfo.new_static ⟨16, 0⟩) (by decide)).1⟩

/-- C7 counterexample: with force `10`, a component of `apply_with_force`
    evaluates to `-10`, strictly below the claimed lower clamp bound `-5`. -/
theorem CollisionInfo.apply_with_force_clamp_counterexample :
    ((CollisionInfo.new_static ⟨0, 0⟩).apply_with_force
      (CollisionInfo.new_static ⟨16, 0⟩) 10).1 < -5 := by
  norm_num [CollisionInfo.apply_with_force, CollisionInfo.normalAndLen,
    CollisionInfo.apply_raw, CollisionInfo.is_static, CollisionInfo.new_static,
    sqrtF32, Rat.sqrt]

/- Rust strings ------------------------------------------------------------/

/-- Rust `String`/`str` modelled as the list of its unicode scalar values;
    byte indices are recovered through `Char.utf8Size`. -/
abbrev RStr := List Char

/-- Byte length of a Rust string (`String::len`). -/
def rstrByteLen (s : RStr) : Nat := (s.map Char.utf8Size).sum

/-- Helper for `String::truncate`: keep the first `n` bytes, failing (`none`)
    when byte `n` falls strictly inside a character's UTF-8 encoding. -/
def takeBytes : RStr → Nat → Option RStr
  | _, 0 => some []
  | [], _ + 1 => some []
  | c :: cs, n + 1 =>
    if c.utf8Size ≤ n + 1 then (takeBytes cs (n + 1 - c.utf8Size)).map (c :: ·) else none

/-- Embedding of Rust `String::truncate(new_len)`: a no-op when `new_len` is
    at least the current byte length, otherwise cuts at byte `new_len`,
    panicking (`none`) when `new_len` is not a character boundary. -/
def rstrTruncate (s : RStr) (new_len : Nat) : Option RStr :=
  if rstrByteLen s ≤ new_len then some s else takeBytes s new_len

/-- Approximation of Rust `char::is_whitespace` (the ASCII whitespace range;
    no name handled in the theorems below contains other whitespace). -/
def isRustWhitespace (c : Char) : Bool := c = ' ' || (9 ≤ c.toNat && c.toNat ≤ 13)

/-- Embedding of Rust `str::trim`: strip leading and trailing whitespace. -/
def rstrTrim (s : RStr) : RStr :=
  ((s.dropWhile isRustWhitespace).reverse.dropWhile isRustWhitespace).reverse

/- clients and client actions (src/cibo_online/src/client/mod.rs) ----------/

/-- Embedding of `ClientId` (a `u32` minted by an atomic counter). -/
structure ClientId where
  val : Nat
deriving DecidableEq, Repr

/-- Embedding of `MoveDirection`. -/
inductive MoveDirection
  | up
  | down
  | left
  | right
  | none
deriving DecidableEq, Repr

/-- Embedding of `ClientActionMovement`: a full move (authoritative position
    plus direction) or a standalone look direction. -/
inductive ClientActionMovement
  | move (position : Position) (direction : MoveDirection)
  | look (direction : MoveDirection)
deriving DecidableEq, Repr

/-- Embedding of `ClientAction`, the sparse per-tick delta. -/
structure ClientAction where
  movement : Option ClientActionMovement
  typing : Option Bool
deriving DecidableEq, Repr

/-- Embedding of `ClientAction::new`. -/
def ClientAction.new : ClientAction := ⟨none, none⟩

/-- Embedding of the `ClientAction::movement` setter (named `setMovement` here
    because the field projection already carries the source name). -/
def ClientAction.setMovement (self : ClientAction) (movement : Position)
    (direction : MoveDirection) : ClientAction :=
  { self with movement := some (.move movement direction) }

/-- Embedding of `ClientAction::look`: merge into an existing `Move`'s
    direction, otherwise store a standalone `Look`. -/
def ClientAction.look (self : ClientAction) (direction : MoveDirection) : ClientAction :=
  match self.movement with
  | some (.move p _) => { self with movement := some (.move p direction) }
  | _ => { self with movement := some (.look direction) }

/-- Embedding of the `ClientAction::typing` setter (named `setTyping` here
    because the field projection already carries the source name). -/
def ClientAction.setTyping (self : ClientAction) (typing : Bool) : ClientAction :=
  { self with typing := some typing }

/-- Embedding of `ClientAction::any`. -/
def ClientAction.any (self : ClientAction) : Bool :=
  self.movement.isSome || self.typing.isSome

/-- Embedding of `ClientAction::combine(self, action)` (older `self`, newer
    `action`). -/
def ClientAction.combine (self action : ClientAction) : ClientAction :=
  let self :=
    if action.movement.isSome then
      match action.movement with
      | some (.move movement direction) => self.setMovement movement direction
      | some (.look direction) => self.look direction
      | none => self
    else self
  if action.typing.isSome then { self with typing := action.typing } else self

/-- Embedding of `Client`. -/
structure Client where
  id : ClientId
  name : RStr
  typing : Bool
  position : Position
  movement : MoveDirection
  look_direction : MoveDirection
deriving DecidableEq, Repr

/-- Embedding of `Client::new`. -/
def Client.new (id : ClientId) (name : RStr) (position : Position) : Client :=
  ⟨id, name, false, position, .none, .none⟩

/-- Embedding of `Client::apply_action`. -/
def Client.apply_action (self : Client) (action : ClientAction) : Client :=
  let self :=
    match action.movement with
    | some (.move movement direction) =>
      { self with
        position := movement
        movement := direction
        look_direction := if direction ≠ .none then direction else self.look_direction }
    | some (.look direction) => { self with look_direction := direction }
    | none => self
  match action.typing with
  | some typing => { self with typing := typing }
  | none => self

/- C2: action coalescing ----------------------------------------------------/

/-- Specification-side merge of the `movement` field, written from the amended
    reading of `ClientAction::combine`: a newer `Move` overwrites; a newer
    `Look(d)` overwrites unless the older field holds a `Move`, in which case
    only that `Move`'s direction becomes `d`; a newer `None` changes nothing. -/
def combineMovementSpec (a b : Option ClientActionMovement) : Option ClientActionMovement :=
  match b, a with
  | none, m => m
  | some (.move p d), _ => some (.move p d)
  | some (.look d), some (.move p _) => some (.move p d)
  | some (.look d), _ => some (.look d)

/-- Specification-side last-writer-wins for an optional field: the last `Some`
    value in the list, if any. -/
def lastSomeTyping : List (Option Bool) → Option Bool
  | [] => none
  | t :: ts =>
    match lastSomeTyping ts with
    | some b => some b
    | none => t

theorem lastSomeTyping_cons₂ (t₁ t₂ : Option Bool) (ts : List (Option Bool)) :
    lastSomeTyping (t₁ :: t₂ :: ts) =
      lastSomeTyping ((if t₂.isSome then t₂ else t₁) :: ts) := by
  simp only [lastSomeTyping]
  cases h : lastSomeTyping ts <;> cases t₂ <;> simp

theorem look_typing (a : ClientAction) (d : MoveDirection) : (a.look d).typing = a.typing := by
  unfold ClientAction.look
  cases a.movement with
  | none => rfl
  | some m => cases m <;> rfl

theorem setMovement_typing (a : ClientAction) (p : Position) (d : MoveDirection) :
    (a.setMovement p d).typing = a.typing := rfl

theorem combine_typing_eq (a b : ClientAction) :
    (a.combine b).typing = if b.typing.isSome then b.typing else a.typing := by
  unfold ClientAction.combine
  cases hb : b.typing with
  | some t => simp [hb]
  | none =>
    simp only [hb, Option.isSome_none, Bool.false_eq_true, if_false]
    cases hm : b.movement with
    | none => simp
    | some m => cases m <;> simp [setMovement_typing, look_typing]

/-- C2 (amended): `combine` is last-writer-wins per field for `typing` and for
    `Move`-carrying `movement` updates, while a newer standalone `Look(d)`
    merges into an older `Move` by replacing only its direction; consequently
    folding a sequence of actions with `combine` leaves in `typing` exactly the
    last `Some` value of that field, regardless of interleaved all-`None`
    actions, and in `movement` the value described by `combineMovementSpec`. -/
theorem combine_characterization :
    (∀ a b : ClientAction,
        (a.combine b).movement = combineMovementSpec a.movement b.movement ∧
          (a.combine b).typing = if b.typing.isSome then b.typing else a.typing) ∧
      ∀ (l : List ClientAction) (a : ClientAction),
        (l.foldl ClientAction.combine a).typing =
          lastSomeTyping ((a :: l).map ClientAction.typing) := by
  have hmove : ∀ a b : ClientAction,
      (a.combine b).movement = combineMovementSpec a.movement b.movement := by
    intro a b
    unfold ClientAction.combine combineMovementSpec
    cases hm : b.movement with
    | none => cases hb : b.typing <;> simp [hm, hb]
    | some m =>
      cases m with
      | move p d => cases hb : b.typing <;> simp [hm, hb, ClientAction.setMovement]
      | look d =>
        cases hb : b.typing <;>
          cases ha : a.movement with
          | none => simp [hm, hb, ClientAction.look, ha]
          | some ma => cases ma <;> simp [hm, hb, ClientAction.look, ha]
  refine ⟨fun a b => ⟨hmove a b, combine_typing_eq a b⟩, ?_⟩
  intro l
  induction l with
  | nil =>
    intro a
    simp only [List.foldl_nil, List.map_cons, List.map_nil, lastSomeTyping]
  | cons x xs ih =>
    intro a
    have h1 : ((a :: x :: xs).map ClientAction.typing) =
        a.typing :: x.typing :: xs.map ClientAction.typing := by simp
    rw [List.foldl_cons, ih (a.combine x), h1, lastSomeTyping_cons₂,
      ← combine_typing_eq a x]
    simp

/-- C2 counterexample: combining an older `Move((0,0), Up)` with a newer
    standalone `Look(Down)` yields `Move((0,0), Down)`, not the newer field
    value `Look(Down)` — the `Some` field of the newer action does not simply
    overwrite the older field. -/
theorem combine_look_over_move_counterexample :
    ((ClientAction.new.setMovement ⟨0, 0⟩ .up).combine
        { ClientAction.new with movement := some (.look .down) }).movement =
        some (.move ⟨0, 0⟩ .down) ∧
      ({ ClientAction.new with movement := some (.look .down) } : ClientAction).movement =
        some (.look .down) ∧
      some (ClientActionMovement.move ⟨0, 0⟩ .down) ≠ some (ClientActionMovement.look .down) := by
  refine ⟨rfl, rfl, by decide⟩

/- C9: look direction invariant ---------------------------------------------/

/-- Specification-side description of the facing direction after
    `Client::apply_action`, written from the amended reading of the source. -/
def lookAfterSpec (old : MoveDirection) (movement : Option ClientActionMovement) :
    MoveDirection :=
  match movement with
  | some (.move _ d) => if d ≠ .none then d else old
  | some (.look d) => d
  | none => old

/-- C9 (amended): `apply_action` changes `look_direction` through a `Move` only
    to a non-`None` direction (a movement stop preserves the facing), but a
    standalone `Look(d)` sets `look_direction` to exactly `d` — including
    `Look(None)`, which does reset the persisted facing direction. -/
theorem apply_action_look_direction (c : Client) (a : ClientAction) :
    (c.apply_action a).look_direction = lookAfterSpec c.look_direction a.movement := by
  unfold Client.apply_action lookAfterSpec
  cases hm : a.movement with
  | none => cases ht : a.typing <;> simp [hm, ht]
  | some m =>
    cases m with
    | move p d => cases ht : a.typing <;> simp [hm, ht]
    | look d => cases ht : a.typing <;> simp [hm, ht]

/-- C9 counterexample: applying the action built by `ClientAction::look(None)`
    to a client currently facing `Up` resets `look_direction` to `None`,
    refuting the claim that `look_direction` only ever changes to a non-`None`
    value (and only together with a movement change). -/
theorem apply_action_look_none_counterexample :
    (({ Client.new ⟨0⟩ [] ⟨0, 0⟩ with look_direction := MoveDirection.up }).apply_action
        (ClientAction.new.look .none)).look_direction = MoveDirection.none ∧
      MoveDirection.none ≠ MoveDirection.up := by decide

/- world objects (src/cibo_online/src/world/...) ----------------------------/

/-- Embedding of `ObjectId` (a `u32` instance id). -/
structure ObjectId where
  val : Nat
deriving DecidableEq, Repr

/-- Embedding of `NetworkObjectId` (a `u64` kind tag). -/
structure NetworkObjectId where
  val : Nat
deriving DecidableEq, Repr

/-- Embedding of `ObjectProperties` (world/object.rs). -/
structure ObjectProperties where
  position : Position
  dimensions : Dimension
  rel_hitbox : Option Rect
  rel_bounds : Rect
  interactable : Bool
  override_z : Option Int
deriving DecidableEq, Repr

/-- Embedding of `BeachBall` (world/objects/beach_ball.rs), the only network
    object kind registered by `setup_network_objects` in this build.  `angle`
    and `queued_collision` are the two `#[serde(skip)]` fields. -/
structure BeachBall where
  properties : ObjectProperties
  position_f : ℚ × ℚ
  velocity : ℚ × ℚ
  angle : ℚ
  queued_collision : Option CollisionInfo
deriving DecidableEq, Repr

/-- Embedding of the `Object::hitbox` default method: the relative hitbox
    translated into world space. -/
def BeachBall.hitbox (b : BeachBall) : Option Rect :=
  b.properties.rel_hitbox.map (fun hb => hb.translate b.properties.position)

/-- Embedding of `BeachBall`'s `collision_info` override: a dynamic body at the
    sprite center carrying the current velocity. -/
def BeachBall.collision_info (b : BeachBall) : CollisionInfo :=
  CollisionInfo.new_dynamic (b.properties.position + b.properties.dimensions.center) b.velocity

/-- Embedding of `BeachBall::on_collision`: remember the last collision for the
    next `server_tick`/`client_tick`. -/
def BeachBall.on_collision (b : BeachBall) (collision : CollisionInfo) : BeachBall :=
  { b with queued_collision := some collision }

/-- Embedding of `ServerGameState`'s tick period, `SERVER_TICK_RATE = 1000 / 60` (= 16 ms). -/
def SERVER_TICK_RATE : Nat := 1000 / 60

/-- Embedding of the velocity-decay prologue of `BeachBall::tick` (before the
    collision test): blend the velocity toward zero and flush tiny components,
    with `powf` the abstract `f32::powf`. -/
def BeachBall.decayVelocity (powf : ℚ → ℚ → ℚ) (delta_ms : Nat) (b : BeachBall) : BeachBall :=
  let passed_ticks : ℚ := (delta_ms : ℚ) / (SERVER_TICK_RATE : ℚ)
  let blend : ℚ := 1 - powf (5/100) passed_ticks
  let v : ℚ × ℚ := (b.velocity.1 * blend, b.velocity.2 * blend)
  let v : ℚ × ℚ := (if |v.1| < 1/10 then 0 else v.1, if |v.2| < 1/10 then 0 else v.2)
  { b with velocity := v }

/-- Embedding of the movement epilogue of `BeachBall::tick` (after the
    collision test): advance `position_f` by the velocity, spin the ball, and
    project the float position back onto the integer `properties.position`. -/
def BeachBall.moveStep (delta_ms : Nat) (b : BeachBall) : BeachBall :=
  let passed_ticks : ℚ := (delta_ms : ℚ) / (SERVER_TICK_RATE : ℚ)
  let pf : ℚ × ℚ :=
    (b.position_f.1 + b.velocity.1 * passed_ticks, b.position_f.2 + b.velocity.2 * passed_ticks)
  let angle :=
    b.angle + (|b.velocity.1| + |b.velocity.2| * (1/2)) * signumF32 b.velocity.1
      * (15/2) * passed_ticks
  { b with
    position_f := pf
    angle := angle
    properties := { b.properties with position := ⟨f32toI64 pf.1, f32toI64 pf.2⟩ } }

/-- Result of one invocation of the server's collision-tester closure on an
    object: the possibly mutated object, the closure's return value, the
    collisions queued for the second pass, and (ghost instrumentation, not a
    source value) the `on_collision` invocations performed, as
    `(receiver id, delivered info)` pairs. -/
structure TesterOutcome where
  object : BeachBall
  result : Option CollisionInfo
  queued : List (ObjectId × CollisionInfo)
  invocations : List (ObjectId × CollisionInfo)

/-- Embedding of `BeachBall::tick`: decay the velocity, run the collision
    tester once on itself, then advance the position. -/
def BeachBall.tick (powf : ℚ → ℚ → ℚ) (delta_ms : Nat)
    (collision_tester : BeachBall → TesterOutcome) (b : BeachBall) : TesterOutcome :=
  let b := b.decayVelocity powf delta_ms
  let out := collision_tester b
  { out with object := out.object.moveStep delta_ms }

/-- Embedding of `BeachBall::apply_collision`: a moving player pushes with
    force `1.2`, anything else resolves through plain `apply`. -/
def BeachBall.applyCollision (b : BeachBall) (collision : CollisionInfo) : BeachBall :=
  { b with
    velocity :=
      if collision.is_player = true ∧ collision.velocityOrZero ≠ (0, 0) then
        b.collision_info.apply_with_force collision (12/10)
      else
        b.collision_info.apply collision }

/-- Embedding of `BeachBallStateMessage` (the payload broadcast in
    `UpdateObject`; postcard bytes are modelled structurally). -/
structure BeachBallStateMessage where
  position : ℚ × ℚ
  velocity : ℚ × ℚ
deriving DecidableEq, Repr

/-- Embedding of `BeachBall::server_tick`: consume the queued collision, then
    report position and velocity when the ball is still moving noticeably. -/
def BeachBall.server_tick (b : BeachBall) : BeachBall × Option BeachBallStateMessage :=
  let b :=
    match b.queued_collision with
    | some collision => ({ b with queued_collision := none }).applyCollision collision
    | none => b
  let result :=
    if 1/10 < |b.velocity.1| ∨ 1/10 < |b.velocity.2| then
      some ⟨b.position_f, b.velocity⟩
    else none
  (b, result)

/- server game state (src/cibo_online/src/server.rs) ------------------------/

/-- Embedding of the `CollectedHitbox` record built at the start of
    `ServerGameState::tick`. -/
structure CollectedHitbox where
  id : ObjectId
  hitbox : Rect
  info : CollisionInfo
deriving DecidableEq, Repr

/-- Embedding of the snapshot pass of `ServerGameState::tick`: every object's
    current hitbox and collision info, skipping hitbox-less objects. -/
def collectHitboxes (objs : List (ObjectId × BeachBall)) : List CollectedHitbox :=
  objs.filterMap fun io => io.2.hitbox.map fun hb => ⟨io.1, hb, io.2.collision_info⟩

/-- Embedding of the collision-tester closure in `ServerGameState::tick`: test
    the ticked object against the snapshot, excluding itself by id; the lazy
    `filter_map(..).next()` delivers only the first intersecting sibling,
    invoking `on_collision` on the ticked object and queueing the mirror
    delivery. -/
def collisionTest (hitboxes : List CollectedHitbox) (id : ObjectId)
    (object : BeachBall) : TesterOutcome :=
  match object.hitbox with
  | none => ⟨object, none, [], []⟩
  | some hitbox =>
    let collision_info := object.collision_info
    match hitboxes.find? (fun other => other.id ≠ id && hitbox.intersects other.hitbox) with
    | some other =>
      ⟨object.on_collision other.info, some other.info,
        [(other.id, collision_info)], [(id, other.info)]⟩
    | none => ⟨object, none, [], []⟩

/-- Embedding of the per-object tick loop of `ServerGameState::tick` (first
    pass): tick every object in order against the shared snapshot, collecting
    the queued collisions and the ghost invocation log. -/
def tickPass1 (powf : ℚ → ℚ → ℚ) (delta_ms : Nat) (hitboxes : List CollectedHitbox) :
    List (ObjectId × BeachBall) →
      List (ObjectId × BeachBall) × List (ObjectId × CollisionInfo) ×
        List (ObjectId × CollisionInfo)
  | [] => ([], [], [])
  | (id, object) :: rest =>
    let out := object.tick powf delta_ms (collisionTest hitboxes id)
    let (rest', queued', invocations') := tickPass1 powf delta_ms hitboxes rest
    ((id, out.object) :: rest', out.queued ++ queued', out.invocations ++ invocations')

/-- Embedding of `HashMap::get_mut` followed by `on_collision` in the second
    pass: update the addressed object if it is still present, reporting whether
    the delivery happened. -/
def deliverCollision (id : ObjectId) (info : CollisionInfo) :
    List (ObjectId × BeachBall) → List (ObjectId × BeachBall) × Bool
  | [] => ([], false)
  | (i, o) :: rest =>
    if i = id then ((i, o.on_collision info) :: rest, true)
    else
      let (rest', delivered) := deliverCollision id info rest
      ((i, o) :: rest', delivered)

/-- Embedding of the symmetric second delivery pass of `ServerGameState::tick`,
    with the same ghost invocation log. -/
def tickPass2 (objs : List (ObjectId × BeachBall)) :
    List (ObjectId × CollisionInfo) →
      List (ObjectId × BeachBall) × List (ObjectId × CollisionInfo)
  | [] => (objs, [])
  | (id, info) :: rest =>
    let (objs', delivered) := deliverCollision id info objs
    let (objs'', invocations) := tickPass2 objs' rest
    (objs'', (if delivered then [(id, info)] else []) ++ invocations)

/-- Embedding of the `server_tick` pass of `ServerGameState::tick`: run every
    object's `server_tick` in order and collect the produced messages. -/
def tickPass3 :
    List (ObjectId × BeachBall) →
      List (ObjectId × BeachBall) × List (ObjectId × BeachBallStateMessage)
  | [] => ([], [])
  | (id, o) :: rest =>
    let (o', msg) := o.server_tick
    let (rest', messages) := tickPass3 rest
    ((id, o') :: rest',
      (match msg with
        | some m => [(id, m)]
        | none => []) ++ messages)

/- network object registry and codec (src/cibo_online/src/world/network_object.rs) -/

/-- Embedding of `BeachBall`'s serialized shape: exactly the non-skipped
    fields, in declaration order (`angle` and `queued_collision` carry
    `#[serde(skip)]` and do not travel). -/
structure BeachBallWire where
  properties : ObjectProperties
  position_f : ℚ × ℚ
  velocity : ℚ × ℚ
deriving DecidableEq, Repr

/-- Serialization of a `BeachBall` into its wire shape. -/
def BeachBall.toWire (b : BeachBall) : BeachBallWire :=
  ⟨b.properties, b.position_f, b.velocity⟩

/-- Deserialization of a `BeachBall` from its wire shape: the `#[serde(skip)]`
    fields are filled with `Default::default()` (`0.0` and `None`). -/
def BeachBall.ofWire (w : BeachBallWire) : BeachBall :=
  ⟨w.properties, w.position_f, w.velocity, 0, none⟩

/-- Wire payload of one network object: the bytes following the kind tag,
    modelled structurally.  `raw` stands for a payload that no decoder of this
    build can produce (an unknown kind's bytes). -/
inductive WirePayload
  | beachBall (w : BeachBallWire)
  | raw (bytes : List Nat)
deriving DecidableEq, Repr

/-- Decode errors of the object codec. -/
inductive DecodeError
  | unknownNetworkObjectId (id : NetworkObjectId)
  | invalidPayload
deriving DecidableEq, Repr

/-- Kind tag assigned to `BeachBall` by `setup_network_objects`: it is the only
    `register_network_object` call in this build, and `NETWORK_OBJ_ID` counts
    from `0`. -/
def beachBallKindId : NetworkObjectId := ⟨0⟩

/-- Embedding of the registered decode function for `BeachBall` (see
    `register_objects!`): deserialize the payload or fail. -/
def decodeBeachBallPayload (p : WirePayload) : Except DecodeError BeachBall :=
  match p with
  | .beachBall w => .ok (BeachBall.ofWire w)
  | .raw _ => .error .invalidPayload

/-- Embedding of `NETWORK_OBJ_ID_TO_DESERIALIZE_FN` after
    `setup_network_objects`: kind tags to decode functions. -/
def networkObjRegistry : List (NetworkObjectId × (WirePayload → Except DecodeError BeachBall)) :=
  [(beachBallKindId, decodeBeachBallPayload)]

/-- Embedding of `BoxedNetworkObject`: the kind tag together with the owned
    object (only `BeachBall` is registered in this build). -/
structure BoxedNetworkObject where
  id : NetworkObjectId
  object : BeachBall
deriving DecidableEq, Repr

/-- Embedding of `BoxedNetworkObject::new::<BeachBall>`: look up the kind
    registered for the type (`TypeId -> NetworkObjectId`). -/
def BoxedNetworkObject.new (object : BeachBall) : BoxedNetworkObject :=
  ⟨beachBallKindId, object⟩

/-- Embedding of `Serialize for BoxedNetworkObject`: a two-element sequence of
    the kind tag and the payload. -/
def BoxedNetworkObject.serialize (b : BoxedNetworkObject) : NetworkObjectId × WirePayload :=
  (b.id, .beachBall b.object.toWire)

/-- Embedding of `BoxedNetworkObjectVisitor::visit_seq`: read the kind tag,
    look up its decode function (failing with an unknown-id error), then decode
    the payload with it. -/
def BoxedNetworkObject.deserialize (w : NetworkObjectId × WirePayload) :
    Except DecodeError BoxedNetworkObject :=
  match networkObjRegistry.find? (fun e => e.1 = w.1) with
  | none => .error (.unknownNetworkObjectId w.1)
  | some e =>
    match e.2 w.2 with
    | .ok object => .ok ⟨w.1, object⟩
    | .error err => .error err

/-- Wire form of a serialized world payload (the body of a `FullState`): the
    clients, the special-event flags, and the network object map entries in
    iteration order. -/
structure WorldWire where
  clients : List Client
  beach_episode : Bool
  network_objects : List (ObjectId × (NetworkObjectId × WirePayload))
deriving DecidableEq, Repr

/-- Embedding of the serde map visitor for `network_objects`: decode the
    entries in order; any entry error aborts the whole map decode. -/
def decodeNetworkObjects :
    List (ObjectId × (NetworkObjectId × WirePayload)) →
      Except DecodeError (List (ObjectId × BoxedNetworkObject))
  | [] => .ok []
  | (i, w) :: rest =>
    match BoxedNetworkObject.deserialize w with
    | .error err => .error err
    | .ok o =>
      match decodeNetworkObjects rest with
      | .error err => .error err
      | .ok rest' => .ok ((i, o) :: rest')

/-- Decoded form of a world payload. -/
structure WorldDecoded where
  clients : List Client
  beach_episode : Bool
  network_objects : List (ObjectId × BoxedNetworkObject)
deriving DecidableEq, Repr

/-- Embedding of `postcard::from_bytes::<WorldState>` on a serialized world:
    clients and flags decode field by field, then the object map (any entry
    error aborts the whole payload). -/
def decodeWorldWire (w : WorldWire) : Except DecodeError WorldDecoded :=
  match decodeNetworkObjects w.network_objects with
  | .error err => .error err
  | .ok objs => .ok ⟨w.clients, w.beach_episode, objs⟩

/- server game state (src/cibo_online/src/server.rs, continued) --------------/

/-- Embedding of `SpecialEventState` (world.rs). -/
structure SpecialEventState where
  beach_episode : Bool
deriving DecidableEq, Repr

/-- Embedding of `WorldState` (world.rs).  The object map holds the boxed
    objects' payloads; in this build every registered object is a `BeachBall`
    and the box's kind tag plays no role outside the codec (modelled above), so
    the map is carried as `ObjectId × BeachBall` pairs in iteration order. -/
structure WorldState where
  clients : List Client
  special_events : SpecialEventState
  network_objects : List (ObjectId × BeachBall)
deriving DecidableEq, Repr

/-- Embedding of `SerializedClientGameState`: the receiving client's id plus
    the postcard-encoded world, carried structurally. -/
structure SerializedClientGameState where
  client_id : ClientId
  world : WorldState
deriving DecidableEq, Repr

/-- Embedding of `ServerMessage`.  `SpecialEvent`'s event argument is omitted:
    `BeachEpisode` is the only variant.  Byte payloads are carried
    structurally. -/
inductive ServerMessage
  | fullState (state : SerializedClientGameState)
  | newClient (client : Client)
  | clientLeft (id : ClientId)
  | updateState (updates : List (ClientId × ClientAction))
  | chat (id : ClientId) (message : RStr)
  | specialEvent (active : Bool)
  | newObject (id : ObjectId) (object : NetworkObjectId × WirePayload)
  | updateObject (id : ObjectId) (data : BeachBallStateMessage)
  | deleteObject (id : ObjectId)
deriving DecidableEq, Repr

/-- Embedding of `ClientMessage`.  The `UpdateObject` variant is matched in
    `ServerGameState::update` (server.rs) though the enum in the snapshot's
    client module lists only the first three variants; it is included here as
    the spec lists it (`UpdateObject(ObjectId, bytes)`), with the byte payload
    modelled as the `CollisionInfo` it decodes to (`none` for undecodable
    bytes). -/
inductive ClientMessage
  | connect (name : RStr)
  | action (action : ClientAction)
  | chat (message : RStr)
  | updateObject (id : ObjectId) (data : Option CollisionInfo)

/-- Embedding of `BeachBall::server_message`: decode a `CollisionInfo` from the
    payload, apply it, and answer with the resulting state message. -/
def BeachBall.server_message (b : BeachBall) (data : Option CollisionInfo) :
    Except DecodeError (BeachBall × Option BeachBallStateMessage) :=
  match data with
  | none => .error .invalidPayload
  | some collision =>
    let b := b.applyCollision collision
    .ok (b, some ⟨b.position_f, b.velocity⟩)

/-- Embedding of `ServerGameState` over an abstract per-client handle type;
    handles are modelled as `Nat` tokens. -/
structure ServerGameState where
  world : WorldState
  client_mapping : List (ClientId × Nat)
  queued_moves : List (ClientId × ClientAction)
deriving DecidableEq, Repr

/-- Embedding of `NotifyTarget`. -/
inductive NotifyTarget
  | all
  | allExcept (id : ClientId)
  | only (id : ClientId)

/-- Embedding of `ServerGameState::notify_clients`: walk the client mapping in
    order, delivering according to the target (the `Only` arm breaks after the
    first matching entry). -/
def notifyClients (mapping : List (ClientId × Nat)) (msg : ServerMessage) :
    NotifyTarget → List (Nat × ServerMessage)
  | .all => mapping.map fun e => (e.2, msg)
  | .allExcept except_id =>
    mapping.filterMap fun e => if e.1 ≠ except_id then some (e.2, msg) else none
  | .only target_id =>
    match mapping.find? (fun e => e.1 = target_id) with
    | some e => [(e.2, msg)]
    | none => []

/-- Embedding of the `ClientMessage::Action` arm of `ServerGameState::update`:
    combine into the first queued entry for this client, else push a new one. -/
def coalesceAction : List (ClientId × ClientAction) → ClientId → ClientAction →
    List (ClientId × ClientAction)
  | [], id, a => [(id, a)]
  | (i, existing) :: rest, id, a =>
    if i = id then (i, existing.combine a) :: rest
    else (i, existing) :: coalesceAction rest id a

/-- Embedding of `clients.iter_mut()` + `find` in `ServerGameState::tick`: scan
    the not-yet-consumed suffix for the client, apply the action there, and
    return the consumed prefix together with the new suffix. -/
def findApply (id : ClientId) (a : ClientAction) :
    List Client → List Client × List Client
  | [] => ([], [])
  | c :: cs =>
    if c.id = id then ([c.apply_action a], cs)
    else
      let (consumed, rest) := findApply id a cs
      (c :: consumed, rest)

/-- Embedding of the queued-move application loop of `ServerGameState::tick`:
    one single forward scan of the client list shared by all queued moves (the
    iterator is created once, outside the loop). -/
def applyQueuedMoves (clients : List Client) :
    List (ClientId × ClientAction) → List Client
  | [] => clients
  | (id, a) :: rest =>
    let (consumed, remaining) := findApply id a clients
    consumed ++ applyQueuedMoves remaining rest

/-- Embedding of `NAME_LIMIT` (lib.rs). -/
def NAME_LIMIT : Nat := 16

/-- Embedding of `MESSAGE_LIMIT` (lib.rs). -/
def MESSAGE_LIMIT : Nat := 100

/-- Modelled from the spec: the default spawn position
    (`monos_gfx::Position::default()`, the origin). -/
def defaultSpawnPosition : Position := ⟨0, 0⟩

/-- Embedding of the fallback display name `"Anon"`. -/
def anonName : RStr := ['A', 'n', 'o', 'n']

/-- Panic outcomes of `ServerGameState::update` (Rust `String::truncate` panics
    off a character boundary). -/
inductive RustPanic
  | stringTruncate
deriving DecidableEq, Repr

/-- Embedding of `HashMap::get_mut` on the object map: first entry with the id. -/
def lookupObject (objs : List (ObjectId × BeachBall)) (id : ObjectId) : Option BeachBall :=
  (objs.find? (fun e => e.1 = id)).map (fun e => e.2)

/-- Replacement of the addressed object after a mutating borrow. -/
def replaceObject (objs : List (ObjectId × BeachBall)) (id : ObjectId) (o : BeachBall) :
    List (ObjectId × BeachBall) :=
  objs.map fun e => if e.1 = id then (e.1, o) else e

/-- Embedding of `ServerGameState::update`: ingress handling of one client
    message, returning the new state and the notification log, or the panic
    raised by an off-boundary `String::truncate`. -/
def ServerGameState.update (self : ServerGameState) (client_id : ClientId)
    (client_msg : ClientMessage) :
    Except RustPanic (ServerGameState × List (Nat × ServerMessage)) :=
  match client_msg with
  | .connect name =>
    match rstrTruncate name NAME_LIMIT with
    | none => .error .stringTruncate
    | some truncated =>
      let name := rstrTrim truncated
      let name := if name = [] then anonName else name
      if self.world.clients.any (fun c => c.id = client_id) then .ok (self, [])
      else
        let client := Client.new client_id name defaultSpawnPosition
        let world := { self.world with clients := self.world.clients ++ [client] }
        let self := { self with world := world }
        let log :=
          notifyClients self.client_mapping (.fullState ⟨client_id, self.world⟩)
              (.only client_id) ++
            notifyClients self.client_mapping (.newClient client) (.allExcept client_id)
        .ok (self, log)
  | .action action =>
    .ok ({ self with queued_moves := coalesceAction self.queued_moves client_id action }, [])
  | .chat message =>
    match rstrTruncate message MESSAGE_LIMIT with
    | none => .error .stringTruncate
    | some message =>
      .ok (self, notifyClients self.client_mapping (.chat client_id message) .all)
  | .updateObject id data =>
    match lookupObject self.world.network_objects id with
    | none => .ok (self, [])
    | some object =>
      match object.server_message data with
      | .ok (object', some msg) =>
        .ok
          ({ self with
              world :=
                { self.world with
                    network_objects := replaceObject self.world.network_objects id object' } },
            notifyClients self.client_mapping (.updateObject id msg) .all)
      | .ok (object', none) =>
        .ok
          ({ self with
              world :=
                { self.world with
                    network_objects := replaceObject self.world.network_objects id object' } },
            [])
      | .error _ => .ok (self, [])

/-- Result of one `ServerGameState::tick`: the new state, the notification log,
    and (ghost instrumentation) the `on_collision` invocations performed. -/
structure TickResult where
  state : ServerGameState
  log : List (Nat × ServerMessage)
  invocations : List (ObjectId × CollisionInfo)

/-- Embedding of `ServerGameState::tick`: snapshot hitboxes, tick every object
    (first collision pass), re-deliver the queued collisions (second pass), run
    `server_tick` on every object and broadcast its messages; finally, if any
    moves are queued, broadcast one batched `UpdateState` to all clients, apply
    the queued moves through a single shared iterator pass, and clear the
    queue. -/
def ServerGameState.tick (powf : ℚ → ℚ → ℚ) (delta_ms : Nat)
    (self : ServerGameState) : TickResult :=
  let hitboxes := collectHitboxes self.world.network_objects
  let p1 := tickPass1 powf delta_ms hitboxes self.world.network_objects
  let p2 := tickPass2 p1.1 p1.2.1
  let p3 := tickPass3 p2.1
  let invocations := p1.2.2 ++ p2.2
  let log :=
    p3.2.flatMap fun im => notifyClients self.client_mapping (.updateObject im.1 im.2) .all
  let self := { self with world := { self.world with network_objects := p3.1 } }
  if self.queued_moves = [] then ⟨self, log, invocations⟩
  else
    let log :=
      log ++ notifyClients self.client_mapping (.updateState self.queued_moves) .all
    let clients := applyQueuedMoves self.world.clients self.queued_moves
    ⟨{ self with
        world := { self.world with clients := clients }
        queued_moves := [] },
      log, invocations⟩

/- C10: String::truncate panics --------------------------------------------/

/-- C10: `ServerGameState::update` panics inside `String::truncate` for a
    `Connect` whose name is longer than 16 bytes with a two-byte character
    straddling byte index 16, and likewise for a `Chat` message with a
    two-byte character straddling byte index 100 — both truncations cut at a
    fixed byte length without checking for a character boundary. -/
theorem update_truncate_panics :
    (ServerGameState.mk ⟨[], ⟨false⟩, []⟩ [] []).update ⟨0⟩
        (.connect (List.replicate 15 'a' ++ ['é'])) = .error .stringTruncate ∧
      (ServerGameState.mk ⟨[], ⟨false⟩, []⟩ [] []).update ⟨0⟩
        (.chat (List.replicate 99 'a' ++ ['é'])) = .error .stringTruncate := by
  constructor <;> rfl

/- C8: registry round-trip --------------------------------------------------/

/-- C8 (amended): for the registered kind `BeachBall`, decoding the encoding of
    a boxed instance restores every serialized field exactly and carries the
    registered kind tag as the first element of the serialized pair; the two
    `#[serde(skip)]` fields, however, come back as their defaults (`angle = 0`,
    `queued_collision = None`) rather than their original values. -/
theorem boxed_network_object_roundtrip (b : BeachBall) :
    BoxedNetworkObject.deserialize (BoxedNetworkObject.new b).serialize =
        .ok ⟨beachBallKindId, BeachBall.ofWire b.toWire⟩ ∧
      (BeachBall.ofWire b.toWire).properties = b.properties ∧
      (BeachBall.ofWire b.toWire).position_f = b.position_f ∧
      (BeachBall.ofWire b.toWire).velocity = b.velocity ∧
      (BeachBall.ofWire b.toWire).angle = 0 ∧
      (BeachBall.ofWire b.toWire).queued_collision = none ∧
      (BoxedNetworkObject.new b).serialize.1 = beachBallKindId :=
  ⟨rfl, rfl, rfl, rfl, rfl, rfl, rfl⟩

/-- Concrete beach ball with a nonzero spin angle, reachable by ticking. -/
def spinBall : BeachBall :=
  ⟨⟨⟨0, 0⟩, ⟨0, 0⟩, none, ⟨⟨0, 0⟩, ⟨0, 0⟩⟩, false, none⟩, (0, 0), (0, 0), 1, none⟩

/-- C8 counterexample: a `BeachBall` whose `angle` is `1` does not round-trip
    to a structurally equal instance — the decoded object differs from the
    encoded one because `#[serde(skip)]` resets `angle` to `0`. -/
theorem boxed_network_object_roundtrip_counterexample :
    BoxedNetworkObject.deserialize (BoxedNetworkObject.new spinBall).serialize ≠
      .ok (BoxedNetworkObject.new spinBall) := by
  intro h
  have h1 : BoxedNetworkObject.deserialize (BoxedNetworkObject.new spinBall).serialize =
      .ok ⟨beachBallKindId, BeachBall.ofWire spinBall.toWire⟩ := rfl
  rw [h1] at h
  have h2 : (BeachBall.ofWire spinBall.toWire).angle = (0 : ℚ) := rfl
  have h3 : spinBall.angle = (1 : ℚ) := rfl
  have h4 : BeachBall.ofWire spinBall.toWire = spinBall := by
    have := h
    simpa [BoxedNetworkObject.new] using this
  rw [← h4, h2] at h3
  norm_num at h3

/- C5: unknown-kind decode --------------------------------------------------/

theorem decodeNetworkObjects_unknown_fails
    (l : List (ObjectId × (NetworkObjectId × WirePayload)))
    (h : ∃ e ∈ l, networkObjRegistry.find? (fun r => r.1 = e.2.1) = none) :
    ∃ err, decodeNetworkObjects l = .error err := by
  induction l with
  | nil => obtain ⟨e, he, _⟩ := h; cases he
  | cons hd tl ih =>
    obtain ⟨e, he, hu⟩ := h
    rcases List.mem_cons.mp he with rfl | hmem
    · refine ⟨.unknownNetworkObjectId e.2.1, ?_⟩
      simp only [decodeNetworkObjects, BoxedNetworkObject.deserialize, hu]
    · obtain ⟨err, herr⟩ := ih ⟨e, hmem, hu⟩
      simp only [decodeNetworkObjects]
      cases hd' : BoxedNetworkObject.deserialize hd.2 with
      | error e2 => exact ⟨e2, rfl⟩
      | ok o => rw [herr]; exact ⟨err, rfl⟩

/-- C5 (amended): a world payload containing an object entry whose kind tag has
    no registered decoder fails to deserialize as a whole — the per-entry
    unknown-kind error aborts the serde map visitor, so no partial world (and
    none of the remaining objects) is produced; the only caller unwraps the
    result. -/
theorem decode_world_unknown_kind_fails (w : WorldWire)
    (h : ∃ e ∈ w.network_objects, networkObjRegistry.find? (fun r => r.1 = e.2.1) = none) :
    ∃ err, decodeWorldWire w = .error err := by
  obtain ⟨err, herr⟩ := decodeNetworkObjects_unknown_fails w.network_objects h
  exact ⟨err, by simp only [decodeWorldWire, herr]⟩

/-- Witness world payload: a lone entry with unregistered kind tag `7`. -/
theorem decode_world_unknown_kind_fails_witness :
    (∃ e ∈ (WorldWire.mk [] false [(⟨0⟩, (⟨7⟩, .raw []))]).network_objects,
        networkObjRegistry.find? (fun r => r.1 = e.2.1) = none) ∧
      ∃ err, decodeWorldWire (WorldWire.mk [] false [(⟨0⟩, (⟨7⟩, .raw []))]) = .error err :=
  ⟨⟨(⟨0⟩, (⟨7⟩, .raw [])), by simp, rfl⟩,
    decode_world_unknown_kind_fails _ ⟨(⟨0⟩, (⟨7⟩, .raw [])), by simp, rfl⟩⟩

/-- Concrete world payload: first a decodable `BeachBall` entry, then an entry
    with unregistered kind tag `7`. -/
def worldWireWithUnknown : WorldWire :=
  ⟨[], false,
    [(⟨0⟩, (⟨0⟩, .beachBall ⟨⟨⟨0, 0⟩, ⟨0, 0⟩, none, ⟨⟨0, 0⟩, ⟨0, 0⟩⟩, false, none⟩, (0, 0), (0, 0)⟩)),
     (⟨1⟩, (⟨7⟩, .raw [3]))]⟩

/-- C5 counterexample: for a payload with one decodable object and one
    unknown-kind object, deserialization yields an error for the entire world
    rather than an error for that object only — no decode of the remaining
    content completes (there is no `ok` result at all). -/
theorem decode_world_unknown_kind_counterexample :
    decodeWorldWire worldWireWithUnknown = .error (.unknownNetworkObjectId ⟨7⟩) ∧
      ∀ r, decodeWorldWire worldWireWithUnknown ≠ .ok r := by
  refine ⟨rfl, ?_⟩
  intro r h
  rw [show decodeWorldWire worldWireWithUnknown = .error (.unknownNetworkObjectId ⟨7⟩) from rfl] at h
  cases h

/- C4: connect handshake ---------------------------------------------------/

/-- Recognizer for `FullState` messages. -/
def ServerMessage.isFullState : ServerMessage → Bool
  | .fullState _ => true
  | _ => false

/-- Recognizer for `NewClient` messages. -/
def ServerMessage.isNewClient : ServerMessage → Bool
  | .newClient _ => true
  | _ => false

/-- Recognizer for `UpdateState` messages. -/
def ServerMessage.isUpdateState : ServerMessage → Bool
  | .updateState _ => true
  | _ => false

theorem filterMap_notifyExcept_eq_filter_map (X : ClientId) {β : Type}
    (f : ClientId × Nat → β) (l : List (ClientId × Nat)) :
    (l.filterMap fun e => if e.1 ≠ X then some (f e) else none) =
      (l.filter fun e => e.1 ≠ X).map f := by
  induction l with
  | nil => rfl
  | cons hd tl ih => by_cases h : hd.1 = X <;> simp [h] <;> simpa using ih

/-- Client entity created by a fresh `Connect` once the name has been
    truncated to `t`: trimmed, defaulted to `Anon` when empty, spawned at the
    default position. -/
def connectClient (X : ClientId) (t : RStr) : Client :=
  Client.new X (if rstrTrim t = [] then anonName else rstrTrim t) defaultSpawnPosition

/-- C4 (amended): a `Connect` from an id not yet in the world sends exactly one
    `FullState` message, delivered to that client's mapping entry only, whose
    serialized client list is the previous list plus the newly created client —
    including the connecting client itself, whose presence
    `ClientGameState::new` on the receiving side relies on — and then
    broadcasts `NewClient` with the new client to every mapping entry except
    the connecting id. -/
theorem connect_fullstate_and_newclient (s : ServerGameState) (X : ClientId)
    (name t : RStr) (ht : rstrTruncate name NAME_LIMIT = some t)
    (hnew : s.world.clients.any (fun c => c.id = X) = false)
    (hmap : X ∈ s.client_mapping.map Prod.fst) :
    ∃ log,
      s.update X (.connect name) =
          .ok ({ s with world := { s.world with
                    clients := s.world.clients ++ [connectClient X t] } }, log) ∧
        (log.filter fun p => p.2.isFullState).length = 1 ∧
        (∀ p ∈ log, p.2.isFullState = true →
            (X, p.1) ∈ s.client_mapping ∧
              p.2 = .fullState ⟨X,
                { s.world with clients := s.world.clients ++ [connectClient X t] }⟩) ∧
        (log.filter fun p => p.2.isNewClient) =
          (s.client_mapping.filter fun e => e.1 ≠ X).map
            (fun e => (e.2, .newClient (connectClient X t))) := by
  obtain ⟨fe0, hfe0, hfeq⟩ := List.mem_map.mp hmap
  have hfind : (s.client_mapping.find? fun e => e.1 = X).isSome :=
    List.find?_isSome.mpr ⟨fe0, hfe0, by simp [hfeq]⟩
  obtain ⟨fe, hfe⟩ := Option.isSome_iff_exists.mp hfind
  have hfeX : fe.1 = X := by simpa using List.find?_some hfe
  have hfemem : fe ∈ s.client_mapping := List.mem_of_find?_eq_some hfe
  refine ⟨notifyClients s.client_mapping
      (.fullState ⟨X, { s.world with clients := s.world.clients ++ [connectClient X t] }⟩)
      (.only X) ++
    notifyClients s.client_mapping (.newClient (connectClient X t)) (.allExcept X), ?_, ?_, ?_, ?_⟩
  · simp only [ServerGameState.update, ht, hnew]
    rfl
  · simp only [List.filter_append, notifyClients, hfe]
    rw [filterMap_notifyExcept_eq_filter_map X
      (fun e => (e.2, ServerMessage.newClient (connectClient X t)))]
    rw [List.filter_map]
    simp [ServerMessage.isFullState, ServerMessage.isNewClient, Function.comp]
  · intro p hp hfull
    simp only [notifyClients, hfe, List.mem_append] at hp
    rcases hp with hp | hp
    · simp only [List.mem_singleton] at hp
      subst hp
      refine ⟨?_, rfl⟩
      rw [show (X, fe.2) = fe from by rw [← hfeX]]
      exact hfemem
    · rw [filterMap_notifyExcept_eq_filter_map X
        (fun e => (e.2, ServerMessage.newClient (connectClient X t)))] at hp
      obtain ⟨e, he, heq⟩ := List.mem_map.mp hp
      rw [← heq] at hfull
      simp [ServerMessage.isFullState] at hfull
  · simp only [List.filter_append, notifyClients, hfe]
    rw [filterMap_notifyExcept_eq_filter_map X
      (fun e => (e.2, ServerMessage.newClient (connectClient X t)))]
    rw [List.filter_map]
    simp [ServerMessage.isFullState, ServerMessage.isNewClient, Function.comp,
      List.filter_eq_self]

/-- Witness server state: empty world, one mapping entry for client 0. -/
def sC4w : ServerGameState := ⟨⟨[], ⟨false⟩, []⟩, [(⟨0⟩, 10)], []⟩

/-- Witness for `connect_fullstate_and_newclient` at a concrete fresh connect. -/
theorem connect_fullstate_and_newclient_witness :
    rstrTruncate ['A', 'n', 'n'] NAME_LIMIT = some ['A', 'n', 'n'] ∧
      (sC4w.world.clients.any (fun c => c.id = ⟨0⟩) = false) ∧
      ((⟨0⟩ : ClientId) ∈ sC4w.client_mapping.map Prod.fst) ∧
      ∃ log,
        sC4w.update ⟨0⟩ (.connect ['A', 'n', 'n']) =
            .ok ({ sC4w with world := { sC4w.world with
                      clients := sC4w.world.clients ++ [connectClient ⟨0⟩ ['A', 'n', 'n']] } },
              log) ∧
          (log.filter fun p => p.2.isFullState).length = 1 ∧
          (∀ p ∈ log, p.2.isFullState = true →
              ((⟨0⟩ : ClientId), p.1) ∈ sC4w.client_mapping ∧
                p.2 = .fullState ⟨⟨0⟩,
                  { sC4w.world with
                      clients := sC4w.world.clients ++ [connectClient ⟨0⟩ ['A', 'n', 'n']] }⟩) ∧
          (log.filter fun p => p.2.isNewClient) =
            (sC4w.client_mapping.filter fun e => e.1 ≠ (⟨0⟩ : ClientId)).map
              (fun e => (e.2, .newClient (connectClient ⟨0⟩ ['A', 'n', 'n']))) :=
  ⟨rfl, rfl, by simp [sC4w],
    connect_fullstate_and_newclient sC4w ⟨0⟩ ['A', 'n', 'n'] ['A', 'n', 'n'] rfl rfl
      (by simp [sC4w])⟩

/-- Pre-existing client B in the counterexample world. -/
def bClient : Client := Client.new ⟨1⟩ ['B'] ⟨0, 0⟩

/-- Client created for Ann's `Connect` in the counterexample. -/
def annClient : Client := Client.new ⟨0⟩ ['A', 'n', 'n'] ⟨0, 0⟩

/-- Counterexample server state: world with client B, mapping entries for both. -/
def sC4 : ServerGameState := ⟨⟨[bClient], ⟨false⟩, []⟩, [(⟨1⟩, 11), (⟨0⟩, 10)], []⟩

/-- C4 counterexample: Ann's `Connect` produces a `FullState` (to Ann's handle
    `10` only) whose serialized client list is `[B, Ann]` — it does contain
    Ann's own newly created `Client`, contradicting the claim that the payload
    holds only the previously connected clients. -/
theorem connect_fullstate_includes_self_counterexample :
    sC4.update ⟨0⟩ (.connect ['A', 'n', 'n']) =
        .ok ({ sC4 with world := { sC4.world with clients := [bClient, annClient] } },
          [(10, .fullState ⟨⟨0⟩, ⟨[bClient, annClient], ⟨false⟩, []⟩⟩),
           (11, .newClient annClient)]) ∧
      annClient.id = ⟨0⟩ ∧ annClient ∈ [bClient, annClient] :=
  ⟨rfl, rfl, by simp⟩

/- C1: tick conservation ----------------------------------------------------/

theorem filter_updateState_objMessages (mapping : List (ClientId × Nat))
    (msgs : List (ObjectId × BeachBallStateMessage)) :
    ((msgs.flatMap fun im =>
        notifyClients mapping (.updateObject im.1 im.2) .all).filter
      fun p => p.2.isUpdateState) = [] := by
  induction msgs with
  | nil => rfl
  | cons hd tl ih =>
    simp only [List.flatMap_cons, List.filter_append, ih, List.append_nil]
    simp [notifyClients, List.filter_map, Function.comp, ServerMessage.isUpdateState]

theorem filter_updateState_notifyAll (mapping : List (ClientId × Nat))
    (q : List (ClientId × ClientAction)) :
    ((notifyClients mapping (.updateState q) .all).filter fun p => p.2.isUpdateState) =
      mapping.map (fun e => (e.2, .updateState q)) := by
  unfold notifyClients
  apply List.filter_eq_self.mpr
  intro p hp
  obtain ⟨e, he, rfl⟩ := List.mem_map.mp hp
  rfl

theorem applyQueuedMoves_eq (clients : List Client) (queued : List (ClientId × ClientAction))
    (hnd : (clients.map Client.id).Nodup)
    (hsub : List.Sublist (queued.map Prod.fst) (clients.map Client.id)) :
    applyQueuedMoves clients queued =
      clients.map (fun c =>
        match queued.find? (fun q => q.1 = c.id) with
        | some q => c.apply_action q.2
        | none => c) := by
  induction clients generalizing queued with
  | nil =>
    have hq : queued = [] := by
      have h1 : queued.map Prod.fst = [] := List.sublist_nil.mp hsub
      exact List.map_eq_nil_iff.mp h1
    subst hq; rfl
  | cons c cs ih =>
    rw [List.map_cons] at hnd
    obtain ⟨hc, hndtl⟩ := List.nodup_cons.mp hnd
    cases queued with
    | nil =>
      simp [applyQueuedMoves]
    | cons q rest =>
      obtain ⟨i, a⟩ := q
      by_cases hic : i = c.id
      · have hsub' : List.Sublist (rest.map Prod.fst) (cs.map Client.id) := by
          rw [List.map_cons, List.map_cons, hic] at hsub
          exact List.cons_sublist_cons.mp hsub
        have hfa : findApply i a (c :: cs) = ([c.apply_action a], cs) := by
          simp [findApply, hic]
        have hhead : applyQueuedMoves (c :: cs) ((i, a) :: rest) =
            c.apply_action a :: applyQueuedMoves cs rest := by
          simp only [applyQueuedMoves, hfa]
          rfl
        rw [hhead, ih rest hndtl hsub']
        simp only [List.map_cons]
        congr 1
        · simp [List.find?_cons, hic]
        · apply List.map_congr_left
          intro x hx
          have hxne : ¬(i = x.id) := by
            rw [hic]
            intro hcontra
            have hmem : c.id ∈ cs.map Client.id := by
              rw [hcontra]; exact List.mem_map_of_mem Client.id hx
            exact hc hmem
          simp [List.find?_cons, hxne]
      · have hsub' : List.Sublist (((i, a) :: rest).map Prod.fst) (cs.map Client.id) := by
          rw [List.map_cons] at hsub
          rcases List.sublist_cons_iff.mp hsub with h | ⟨r, hr, _⟩
          · exact h
          · exact absurd (List.cons_eq_cons.mp hr).1 hic
        have hnotin : c.id ∉ ((i, a) :: rest).map Prod.fst := by
          intro hmem
          exact hc (hsub'.subset hmem)
        have hhead : applyQueuedMoves (c :: cs) ((i, a) :: rest) =
            c :: applyQueuedMoves cs ((i, a) :: rest) := by
          have hne : ¬(c.id = i) := fun h => hic h.symm
          rcases hfa : findApply i a cs with ⟨consumed, remaining⟩
          simp only [applyQueuedMoves, findApply, if_neg hne, hfa]
          rw [List.cons_append]
        rw [hhead, ih ((i, a) :: rest) hndtl hsub']
        simp only [List.map_cons]
        congr 1
        have hfind : (((i, a) :: rest).find? fun q => q.1 = c.id) = none := by
          rw [List.find?_eq_none]
          intro x hx
          simp only [decide_eq_true_eq]
          intro hcontra
          have hmem : c.id ∈ ((i, a) :: rest).map Prod.fst := by
            rw [← hcontra]; exact List.mem_map_of_mem Prod.fst hx
          exact hnotin hmem
        simp [hfind]

/-- C1 (amended): a tick with an empty action queue broadcasts no
    `UpdateState`; a tick with a non-empty queue sends exactly one
    `UpdateState`, containing exactly the queued entries (one per distinct
    queuing client), to every connected mapping entry, and empties the queue.
    Queued actions are applied through one shared forward scan of the client
    list, so when the queued entries occur in the order of the world's client
    list (here: their ids form a sublist of the client ids), every queued
    action is applied to its matching client. -/
theorem tick_updatestate_conservation (powf : ℚ → ℚ → ℚ) (delta_ms : Nat)
    (s : ServerGameState)
    (hnd : (s.world.clients.map Client.id).Nodup)
    (hsub : List.Sublist (s.queued_moves.map Prod.fst) (s.world.clients.map Client.id)) :
    (s.queued_moves = [] →
        ((ServerGameState.tick powf delta_ms s).log.filter fun p => p.2.isUpdateState) = [] ∧
          (ServerGameState.tick powf delta_ms s).state.queued_moves = [] ∧
          (ServerGameState.tick powf delta_ms s).state.world.clients = s.world.clients) ∧
      (s.queued_moves ≠ [] →
        ((ServerGameState.tick powf delta_ms s).log.filter fun p => p.2.isUpdateState) =
            s.client_mapping.map (fun e => (e.2, .updateState s.queued_moves)) ∧
          (s.queued_moves.map Prod.fst).Nodup ∧
          (ServerGameState.tick powf delta_ms s).state.queued_moves = [] ∧
          (ServerGameState.tick powf delta_ms s).state.world.clients =
            s.world.clients.map (fun c =>
              match s.queued_moves.find? (fun q => q.1 = c.id) with
              | some q => c.apply_action q.2
              | none => c)) := by
  constructor
  · intro hq
    simp only [ServerGameState.tick, hq, if_true, ite_true]
    exact ⟨filter_updateState_objMessages _ _, trivial, trivial⟩
  · intro hq
    simp only [ServerGameState.tick, if_neg hq]
    refine ⟨?_, hnd.sublist hsub, trivial, applyQueuedMoves_eq _ _ hnd hsub⟩
    rw [List.filter_append, filter_updateState_objMessages, filter_updateState_notifyAll,
      List.nil_append]

/-- Concrete stand-in for `f32::powf`, exact at the natural exponents where the
    concrete states below evaluate it (`passed_ticks = 1`). -/
def powfF32 : ℚ → ℚ → ℚ := fun b e => b ^ e.num.toNat

/-- Action that starts typing. -/
def actTyping : ClientAction := ClientAction.new.setTyping true

/-- Client 0 of the concrete tick states. -/
def cZero : Client := Client.new ⟨0⟩ [] ⟨0, 0⟩

/-- Client 1 of the concrete tick states. -/
def cOne : Client := Client.new ⟨1⟩ [] ⟨0, 0⟩

/-- Witness server state: two clients, one queued action, in client-list order. -/
def sC1w : ServerGameState :=
  ⟨⟨[cZero, cOne], ⟨false⟩, []⟩, [(⟨0⟩, 0), (⟨1⟩, 1)], [(⟨0⟩, actTyping)]⟩

/-- Witness for `tick_updatestate_conservation` at a concrete one-entry queue. -/
theorem tick_updatestate_conservation_witness :
    (sC1w.world.clients.map Client.id).Nodup ∧
      List.Sublist (sC1w.queued_moves.map Prod.fst) (sC1w.world.clients.map Client.id) ∧
      (sC1w.queued_moves ≠ [] →
        ((ServerGameState.tick powfF32 16 sC1w).log.filter fun p => p.2.isUpdateState) =
            sC1w.client_mapping.map (fun e => (e.2, .updateState sC1w.queued_moves)) ∧
          (sC1w.queued_moves.map Prod.fst).Nodup ∧
          (ServerGameState.tick powfF32 16 sC1w).state.queued_moves = [] ∧
          (ServerGameState.tick powfF32 16 sC1w).state.world.clients =
            sC1w.world.clients.map (fun c =>
              match sC1w.queued_moves.find? (fun q => q.1 = c.id) with
              | some q => c.apply_action q.2
              | none => c)) :=
  ⟨by decide, by decide,
    (tick_updatestate_conservation powfF32 16 sC1w (by decide) (by decide)).2⟩

/-- Counterexample server state: the queue lists client 1's action before
    client 0's, the reverse of the world's client-list order. -/
def sC1 : ServerGameState :=
  ⟨⟨[cZero, cOne], ⟨false⟩, []⟩, [(⟨0⟩, 0), (⟨1⟩, 1)],
    [(⟨1⟩, actTyping), (⟨0⟩, actTyping)]⟩

/-- C1 counterexample: with the queue out of client-list order, the tick's
    single shared `iter_mut` scan is exhausted by the first queued entry, so
    client 0's queued action is never applied — after the tick client 0 is
    unchanged (`typing = false`) even though `(0, actTyping)` was queued (and
    broadcast). -/
theorem tick_dropped_action_counterexample :
    ((⟨0⟩, actTyping) : ClientId × ClientAction) ∈ sC1.queued_moves ∧
      (ServerGameState.tick powfF32 16 sC1).state.world.clients =
        [cZero, cOne.apply_action actTyping] ∧
      cZero.typing = false ∧
      (cZero.apply_action actTyping).typing = true ∧
      cZero ≠ cZero.apply_action actTyping := by
  refine ⟨by decide, rfl, rfl, rfl, by decide⟩

/- C3: collision delivery ---------------------------------------------------/

theorem decay_hitbox (powf : ℚ → ℚ → ℚ) (delta_ms : Nat) (b : BeachBall) :
    (b.decayVelocity powf delta_ms).hitbox = b.hitbox := rfl

theorem onCollision_hitbox (b : BeachBall) (c : CollisionInfo) :
    (b.on_collision c).hitbox = b.hitbox := rfl

theorem collisionTest_pair_left (powf : ℚ → ℚ → ℚ) (delta_ms : Nat)
    (idA idB : ObjectId) (A B : BeachBall) (rA rB : Rect)
    (hid : idA ≠ idB) (hA : A.hitbox = some rA) (hB : B.hitbox = some rB)
    (hAB : rA.intersects rB = true) :
    collisionTest [⟨idA, rA, A.collision_info⟩, ⟨idB, rB, B.collision_info⟩] idA
        (A.decayVelocity powf delta_ms) =
      ⟨(A.decayVelocity powf delta_ms).on_collision B.collision_info,
        some B.collision_info,
        [(idB, (A.decayVelocity powf delta_ms).collision_info)],
        [(idA, B.collision_info)]⟩ := by
  have hA1 : (A.decayVelocity powf delta_ms).hitbox = some rA := hA
  have hid' : ¬(idB = idA) := fun h => hid h.symm
  simp only [collisionTest, hA1, List.find?_cons]
  simp [hid', hAB]

theorem collisionTest_pair_right (powf : ℚ → ℚ → ℚ) (delta_ms : Nat)
    (idA idB : ObjectId) (A B : BeachBall) (rA rB : Rect)
    (hid : idA ≠ idB) (hA : A.hitbox = some rA) (hB : B.hitbox = some rB)
    (hBA : rB.intersects rA = true) :
    collisionTest [⟨idA, rA, A.collision_info⟩, ⟨idB, rB, B.collision_info⟩] idB
        (B.decayVelocity powf delta_ms) =
      ⟨(B.decayVelocity powf delta_ms).on_collision A.collision_info,
        some A.collision_info,
        [(idA, (B.decayVelocity powf delta_ms).collision_info)],
        [(idB, A.collision_info)]⟩ := by
  have hB1 : (B.decayVelocity powf delta_ms).hitbox = some rB := hB
  simp only [collisionTest, hB1, List.find?_cons]
  simp [hid, hBA]

theorem tickPass1_pair (powf : ℚ → ℚ → ℚ) (delta_ms : Nat)
    (idA idB : ObjectId) (A B : BeachBall) (rA rB : Rect)
    (hid : idA ≠ idB) (hA : A.hitbox = some rA) (hB : B.hitbox = some rB)
    (hAB : rA.intersects rB = true) (hBA : rB.intersects rA = true) :
    tickPass1 powf delta_ms [⟨idA, rA, A.collision_info⟩, ⟨idB, rB, B.collision_info⟩]
        [(idA, A), (idB, B)] =
      ([(idA, ((A.decayVelocity powf delta_ms).on_collision B.collision_info).moveStep delta_ms),
        (idB, ((B.decayVelocity powf delta_ms).on_collision A.collision_info).moveStep delta_ms)],
       [(idB, (A.decayVelocity powf delta_ms).collision_info),
        (idA, (B.decayVelocity powf delta_ms).collision_info)],
       [(idA, B.collision_info), (idB, A.collision_info)]) := by
  simp only [tickPass1, BeachBall.tick,
    collisionTest_pair_left powf delta_ms idA idB A B rA rB hid hA hB hAB,
    collisionTest_pair_right powf delta_ms idA idB A B rA rB hid hA hB hBA]
  rfl

theorem tickPass2_pair (idA idB : ObjectId) (X Y : BeachBall) (iA iB : CollisionInfo)
    (hid : idA ≠ idB) :
    tickPass2 [(idA, X), (idB, Y)] [(idB, iA), (idA, iB)] =
      ([(idA, X.on_collision iB), (idB, Y.on_collision iA)],
       [(idB, iA), (idA, iB)]) := by
  have hid' : ¬(idB = idA) := fun h => hid h.symm
  simp [tickPass2, deliverCollision, hid, hid']

/-- C3 (amended): when exactly two dynamic network objects (beach balls) with
    intersecting hitboxes share the world during one `ServerGameState::tick`,
    each object's `on_collision` is invoked exactly twice, not once: once
    during its own tick through the collision tester, receiving the other's
    start-of-tick snapshot `CollisionInfo`, and a second time in the queued
    re-delivery pass, receiving the other's mid-tick info (sampled after its
    velocity decay, when it ran its own collision test). -/
theorem collision_symmetric_double_delivery (powf : ℚ → ℚ → ℚ) (delta_ms : Nat)
    (s : ServerGameState) (idA idB : ObjectId) (A B : BeachBall) (rA rB : Rect)
    (hobjs : s.world.network_objects = [(idA, A), (idB, B)])
    (hid : idA ≠ idB) (hA : A.hitbox = some rA) (hB : B.hitbox = some rB)
    (hAB : rA.intersects rB = true) :
    (ServerGameState.tick powf delta_ms s).invocations =
        [(idA, B.collision_info), (idB, A.collision_info),
         (idB, (A.decayVelocity powf delta_ms).collision_info),
         (idA, (B.decayVelocity powf delta_ms).collision_info)] ∧
      ((ServerGameState.tick powf delta_ms s).invocations.filter
          fun e => e.1 = idA).length = 2 ∧
      ((ServerGameState.tick powf delta_ms s).invocations.filter
          fun e => e.1 = idB).length = 2 := by
  have hBA : rB.intersects rA = true := by rw [Rect.intersects_comm]; exact hAB
  have hid' : ¬(idB = idA) := fun h => hid h.symm
  have hch : collectHitboxes [(idA, A), (idB, B)] =
      [⟨idA, rA, A.collision_info⟩, ⟨idB, rB, B.collision_info⟩] := by
    simp [collectHitboxes, hA, hB]
  have hinv : (ServerGameState.tick powf delta_ms s).invocations =
      [(idA, B.collision_info), (idB, A.collision_info),
       (idB, (A.decayVelocity powf delta_ms).collision_info),
       (idA, (B.decayVelocity powf delta_ms).collision_info)] := by
    simp only [ServerGameState.tick, hobjs, hch,
      tickPass1_pair powf delta_ms idA idB A B rA rB hid hA hB hAB hBA,
      tickPass2_pair idA idB _ _ _ _ hid]
    rw [apply_ite TickResult.invocations]
    simp
  refine ⟨hinv, ?_, ?_⟩ <;> rw [hinv] <;> simp [List.filter_cons, hid, hid']

/-- Concrete beach ball at the origin with a 10×10 hitbox. -/
def ballA : BeachBall :=
  ⟨⟨⟨0, 0⟩, ⟨0, 0⟩, some ⟨⟨0, 0⟩, ⟨10, 10⟩⟩, ⟨⟨0, 0⟩, ⟨0, 0⟩⟩, false, none⟩,
    (0, 0), (0, 0), 0, none⟩

/-- Concrete beach ball three units to the right, overlapping `ballA`. -/
def ballB : BeachBall :=
  ⟨⟨⟨3, 0⟩, ⟨0, 0⟩, some ⟨⟨0, 0⟩, ⟨10, 10⟩⟩, ⟨⟨0, 0⟩, ⟨0, 0⟩⟩, false, none⟩,
    (3, 0), (0, 0), 0, none⟩

/-- Concrete server state holding the two overlapping beach balls. -/
def sC3 : ServerGameState := ⟨⟨[], ⟨false⟩, [(⟨0⟩, ballA), (⟨1⟩, ballB)]⟩, [], []⟩

/-- Witness for `collision_symmetric_double_delivery` on the two concrete
    overlapping beach balls. -/
theorem collision_symmetric_double_delivery_witness :
    sC3.world.network_objects = [(⟨0⟩, ballA), (⟨1⟩, ballB)] ∧
      (⟨0⟩ : ObjectId) ≠ (⟨1⟩ : ObjectId) ∧
      ballA.hitbox = some ⟨⟨0, 0⟩, ⟨10, 10⟩⟩ ∧
      ballB.hitbox = some ⟨⟨3, 0⟩, ⟨13, 10⟩⟩ ∧
      (Rect.intersects ⟨⟨0, 0⟩, ⟨10, 10⟩⟩ ⟨⟨3, 0⟩, ⟨13, 10⟩⟩) = true ∧
      (ServerGameState.tick powfF32 16 sC3).invocations =
        [(⟨0⟩, ballB.collision_info), (⟨1⟩, ballA.collision_info),
         (⟨1⟩, (ballA.decayVelocity powfF32 16).collision_info),
         (⟨0⟩, (ballB.decayVelocity powfF32 16).collision_info)] :=
  ⟨rfl, by decide, by decide, by decide, by decide,
    (collision_symmetric_double_delivery powfF32 16 sC3 ⟨0⟩ ⟨1⟩ ballA ballB
      ⟨⟨0, 0⟩, ⟨10, 10⟩⟩ ⟨⟨3, 0⟩, ⟨13, 10⟩⟩ rfl (by decide) (by decide) (by decide)
      (by decide)).1⟩

/-- C3 counterexample: for the two distinct overlapping beach balls, each
    object's `on_collision` is invoked twice during the tick, not exactly
    once as claimed. -/
theorem collision_single_delivery_counterexample :
    ((ServerGameState.tick powfF32 16 sC3).invocations.filter
        fun e => e.1 = (⟨0⟩ : ObjectId)).length = 2 ∧
      ((ServerGameState.tick powfF32 16 sC3).invocations.filter
        fun e => e.1 = (⟨1⟩ : ObjectId)).length = 2 ∧
      (2 : Nat) ≠ 1 :=
  ⟨rfl, rfl, by decide⟩
